import Mathlib

/-!
# Verification of the Millikan charge-data program

A shallow embedding of `src/Assignment2/Assignment2.cpp`: the string
trimming helpers (`String::ltrim`/`rtrim`/`trim`), the line-validation and
file-loading logic of `ChargeDataModel::loadDataFromFile` /
`getLineCount`, and the statistics functions of namespace `DataAnalysis`.

Modelling choices:
* file contents and lines are `List Char`; `double` values are modelled as
  exact rationals `ℚ` (results involving `sqrt` live in `ℝ`);
* `unsigned int` arithmetic is `Nat` with explicit wrap-around where the
  source can wrap;
* `std::stringstream >> double` is modelled with the C++11 `num_get`
  semantics the source requires (it uses `nullptr`, lambdas and
  range-based `for`, so it cannot be compiled as C++03):
  - the sentry first skips whitespace; if it reaches end of stream the
    extraction fails without storing anything, so `possibleCharge` keeps
    the `-1.0` it was initialised with;
  - otherwise stage 2 greedily consumes a field: the longest prefix that
    remains a prefix of a decimal floating-point literal (optional sign,
    digits with at most one point, and an exponent marker with optional
    sign once a mantissa digit has been seen — so a dangling `"1.0e"` is
    consumed whole). This is the decimal automaton of the major library
    implementations, including the Visual C++ toolchain the source's
    comments indicate; hexadecimal fields, which some libraries also
    consume, are outside the model and no theorem below depends on them;
  - stage 3 converts the field as by `strtold`; if the field does not
    convert in its entirety (empty field, lone sign or point, dangling
    exponent), the C++11 rule stores the value 0.0 and sets `failbit` —
    the `-1.0` sentinel the source relies on is overwritten, and the
    subsequent `emptyTest` extraction on the failed stream leaves the
    string empty, so such lines are accepted as 0.0.
-/

namespace Assignment2

/-- C `isspace` in the default locale: space, tab, newline, vertical tab,
form feed, carriage return. -/
def isspace (c : Char) : Bool :=
  c = ' ' || c = '\t' || c = '\n' || c = Char.ofNat 11 || c = Char.ofNat 12 || c = '\r'

/-- Models `String::ltrim`: erase from the beginning up to the first
non-whitespace character. -/
def ltrim (s : List Char) : List Char :=
  s.dropWhile isspace

/-- Models `String::rtrim`: erase from after the last non-whitespace character to
the end. -/
def rtrim (s : List Char) : List Char :=
  (s.reverse.dropWhile isspace).reverse

/-- Models `String::trim`: `ltrim` then `rtrim`. -/
def trim (s : List Char) : List Char :=
  rtrim (ltrim s)

/-- Numeric value of a digit string, most significant first. -/
def digitsVal (ds : List Char) : ℕ :=
  ds.foldl (fun a c => 10 * a + (c.toNat - 48)) 0

/-- Digit span of a string: the leading digits and what follows them. -/
def takeDigits (s : List Char) : List Char × List Char :=
  (s.takeWhile Char.isDigit, s.dropWhile Char.isDigit)

/-- Stage-2 consumption of the exponent part, entered after a mantissa
digit has been seen: the marker, an optional sign, then digits — the
marker and sign stay consumed even when no digit follows. -/
def expSplit (marker : Char) (r : List Char) : List Char × List Char :=
  match r with
  | '+' :: r2 => (marker :: '+' :: (takeDigits r2).1, (takeDigits r2).2)
  | '-' :: r2 => (marker :: '-' :: (takeDigits r2).1, (takeDigits r2).2)
  | _ => (marker :: (takeDigits r).1, (takeDigits r).2)

/-- Stage 2 of the `num_get` extraction: greedily split off the field —
the longest prefix that remains a prefix of a decimal floating-point
literal (optional sign, digits with at most one point, and an exponent
part only once a mantissa digit has been seen). Returns the field and the
unconsumed rest of the stream. -/
def fieldSplit (s : List Char) : List Char × List Char :=
  let sgnPart : List Char × List Char :=
    match s with
    | '+' :: r => (['+'], r)
    | '-' :: r => (['-'], r)
    | _ => ([], s)
  let ipPart := takeDigits sgnPart.2
  let fpPart : List Char × List Char :=
    match ipPart.2 with
    | '.' :: r => ('.' :: (takeDigits r).1, (takeDigits r).2)
    | _ => ([], ipPart.2)
  let hasMantissa : Bool := !ipPart.1.isEmpty || !(fpPart.1.drop 1).isEmpty
  let expPart : List Char × List Char :=
    if hasMantissa then
      match fpPart.2 with
      | 'e' :: r => expSplit 'e' r
      | 'E' :: r => expSplit 'E' r
      | _ => ([], fpPart.2)
    else ([], fpPart.2)
  (sgnPart.1 ++ ipPart.1 ++ fpPart.1 ++ expPart.1, expPart.2)

/-- Exponent part of the stage-3 `strtold` conversion: after the `e`/`E`,
an optional sign and at least one digit; with no digit the field does not
convert (`none`). Scales the already-converted mantissa. -/
def parseExp (mant : ℚ) (r : List Char) : Option (ℚ × List Char) :=
  let sgnRest : ℤ × List Char :=
    match r with
    | '-' :: rr => (-1, rr)
    | '+' :: rr => (1, rr)
    | _ => (1, r)
  let ed := sgnRest.2.takeWhile Char.isDigit
  let r2 := sgnRest.2.dropWhile Char.isDigit
  if ed = [] then none
  else some (mant * (10 : ℚ) ^ (sgnRest.1 * (digitsVal ed : ℤ)), r2)

/-- Stage-3 `strtold` conversion of a decimal literal: optional sign,
integer digits, optional `.` and fraction digits (at least one digit in
the mantissa overall), optional exponent with at least one digit.
Returns the converted value and the unconverted remainder, or `none`
when nothing converts. -/
def parseDouble (s : List Char) : Option (ℚ × List Char) :=
  let sgnRest : ℚ × List Char :=
    match s with
    | '-' :: r => (-1, r)
    | '+' :: r => (1, r)
    | _ => (1, s)
  let ip := sgnRest.2.takeWhile Char.isDigit
  let s2 := sgnRest.2.dropWhile Char.isDigit
  let fpRest : List Char × List Char :=
    match s2 with
    | '.' :: r => (r.takeWhile Char.isDigit, r.dropWhile Char.isDigit)
    | _ => ([], s2)
  if ip = [] ∧ fpRest.1 = [] then none
  else
    let mant : ℚ :=
      sgnRest.1 * ((digitsVal ip : ℚ) + (digitsVal fpRest.1 : ℚ) / (10 : ℚ) ^ fpRest.1.length)
    match fpRest.2 with
    | 'e' :: r => parseExp mant r
    | 'E' :: r => parseExp mant r
    | _ => some (mant, fpRest.2)

/-- Outcome of a formatted `>> double` extraction under C++11. -/
inductive ExtractResult where
  /-- The sentry reached end of stream skipping whitespace: nothing is
  stored, the target keeps its prior value, `failbit` is set. -/
  | sentryFail : ExtractResult
  /-- Stage 3 failed to convert the entire stage-2 field: the value 0.0
  is stored and `failbit` is set. -/
  | convFail : ExtractResult
  /-- The field converted: the value is stored and the stream continues
  after the field. -/
  | ok : ℚ → List Char → ExtractResult
deriving DecidableEq

/-- A formatted extraction `sstream >> possibleCharge` under C++11: the
sentry skips whitespace (failing at end of stream), stage 2 consumes the
field, stage 3 converts it — storing 0.0 when the entire field does not
convert. -/
def extractDouble (s : List Char) : ExtractResult :=
  let s1 := s.dropWhile isspace
  if s1 = [] then ExtractResult.sentryFail
  else
    let fr := fieldSplit s1
    match parseDouble fr.1 with
    | some (v, []) => ExtractResult.ok v fr.2
    | _ => ExtractResult.convFail

/-- A formatted string extraction `sstream >> emptyTest` on a good stream:
skip whitespace, then take the maximal run of non-whitespace characters. -/
def extractToken (s : List Char) : List Char :=
  (s.dropWhile isspace).takeWhile (fun c => !isspace c)

/-- The per-line body of `ChargeDataModel::loadDataFromFile` (lines
168–196 of the source): trim the line, extract a `double` into
`possibleCharge` (initialised to `-1.0`; a failed sentry leaves that
sentinel, but a failed conversion stores 0.0 per C++11), extract a
trailing token into `emptyTest` (left empty when the stream already
failed), and reject when `possibleCharge < 0.0` or `emptyTest` is not
empty; otherwise the charge is stored. -/
def validateLine (rawLine : List Char) : Option ℚ :=
  let line := trim rawLine
  let st := extractDouble line
  let possibleCharge : ℚ :=
    match st with
    | ExtractResult.sentryFail => -1
    | ExtractResult.convFail => 0
    | ExtractResult.ok v _ => v
  let emptyTest : List Char :=
    match st with
    | ExtractResult.sentryFail => []
    | ExtractResult.convFail => []
    | ExtractResult.ok _ rest => extractToken rest
  if possibleCharge < 0 ∨ emptyTest ≠ [] then none else some possibleCharge

/-- Models `std::getline`: the characters up to the next `'\n'`. -/
def getlineTake (s : List Char) : List Char :=
  s.takeWhile (fun c => c ≠ '\n')

/-- Models `std::getline`: what remains of the stream after consuming the line
and its terminating `'\n'` (or the whole stream at end of file). -/
def getlineRest (s : List Char) : List Char :=
  (s.dropWhile (fun c => c ≠ '\n')).drop 1

/-- Models `ChargeDataModel::getLineCount` on a stream from position 0: the
number of `'\n'` characters in the content. -/
def getLineCount (content : List Char) : ℕ :=
  content.count '\n'

/-- Read `n` lines from the stream with `std::getline`, in order. -/
def readLines : ℕ → List Char → List (List Char)
  | 0, _ => []
  | n + 1, s => getlineTake s :: readLines n (getlineRest s)

/-- The validation loop of `ChargeDataModel::loadDataFromFile`: iterate
over the lines read; a valid charge is written at index
`i - maxSize + finalSize`, which equals the number of charges accepted so
far, so acceptance appends to the accumulator; a corrupt data point
decrements `finalSize` and is skipped. Returns the charge array and the
final `finalSize`. -/
def loadLoop : List (List Char) → List ℚ → ℕ → List ℚ × ℕ
  | [], acc, finalSize => (acc, finalSize)
  | line :: rest, acc, finalSize =>
    match validateLine line with
    | some v => loadLoop rest (acc ++ [v]) finalSize
    | none => loadLoop rest acc (finalSize - 1)

/-- Models `ChargeDataModel::loadDataFromFile` on an open file at position 0:
count the newline characters (`maxSize`), read that many lines, validate
each, and return the contiguous array of accepted charges together with
the reported `size` (= `finalSize`). -/
def loadDataFromFile (content : List Char) : List ℚ × ℕ :=
  let maxSize := getLineCount content
  loadLoop (readLines maxSize content) [] maxSize

/-- The spec's notion of a valid line (stated from the spec's words, for
comparison with the code's `validateLine`): the trimmed line is entirely
a single floating-point token and its value is non-negative. -/
def specValidLine (rawLine : List Char) : Option ℚ :=
  match parseDouble (trim rawLine) with
  | some (v, []) => if 0 ≤ v then some v else none
  | _ => none

/-- The values of the spec-valid lines of a file, in file order. -/
def specValidValues (content : List Char) : List ℚ :=
  (readLines (getLineCount content) content).filterMap specValidLine

/-! ## Statistics (`namespace DataAnalysis`) -/

/-- Unsigned 32-bit subtraction, as performed on the `unsigned int`
`size - 1` in `computeStandardDeviation`. -/
def usub32 (a b : ℕ) : ℕ :=
  (a % 2 ^ 32 + (2 ^ 32 - b % 2 ^ 32)) % 2 ^ 32

/-- Models `DataAnalysis::computeMean`: accumulate `total += data[i]` over the
array, then divide by the count. -/
def computeMean (data : List ℚ) : ℚ :=
  data.foldl (fun total x => total + x) 0 / (data.length : ℚ)

/-- The accumulation loop of `DataAnalysis::computeStandardDeviation`:
`total += pow(data[i] - mean, 2.0)`. -/
def sumSquaredDeviations (data : List ℚ) (mean : ℚ) : ℚ :=
  data.foldl (fun total x => total + (x - mean) ^ 2) 0

/-- Models `DataAnalysis::computeStandardDeviation`:
`sqrt(total / (double)(size - 1))` where `size` is the `unsigned int`
length of the array, so `size - 1` wraps at zero. -/
noncomputable def computeStandardDeviation (data : List ℚ) (mean : ℚ) : ℝ :=
  Real.sqrt ((sumSquaredDeviations data mean : ℝ) / (usub32 data.length 1 : ℝ))

/-- Models `DataAnalysis::computeStandardErrorInTheMean`:
`mean / sqrt((double)size)` — the mean, not the standard deviation, is
divided by the square root of the count. -/
noncomputable def computeStandardErrorInTheMean (mean : ℚ) (size : ℕ) : ℝ :=
  (mean : ℝ) / Real.sqrt (size : ℝ)

/-! ## The stateful model object and the driver loop

`ChargeDataModel` owns an `std::fstream` and a raw charge buffer. The
file handle is modelled by the content of the open file (`none` when the
stream is not open) plus the stream read position; the buffer by the
loaded charges with their reported size (`none` for `nullptr`). A file
system is a map from paths to contents, `none` when a path cannot be
opened. `exit(0)` inside `loadDataFromFile` is modelled by an `Option`
result that aborts the whole run. -/

/-- A file system: what content, if any, opening a path yields. -/
def FileSystem : Type :=
  List Char → Option (List Char)

/-- State of a `ChargeDataModel` object. -/
structure ChargeDataModel where
  m_filepath : List Char
  /-- Content of the file the open `m_file` stream refers to; `none` when
  the stream is not open. -/
  m_file : Option (List Char)
  /-- Current read position of the `m_file` stream. -/
  m_filePos : ℕ
  /-- The loaded charge array and the size reported for it; `none` models
  the `nullptr` state of `m_charges`. -/
  m_charges : Option (List ℚ × ℕ)

/-- A default-constructed `ChargeDataModel`: no file open, no charges. -/
def mkChargeDataModel : ChargeDataModel :=
  { m_filepath := [], m_file := none, m_filePos := 0, m_charges := none }

/-- Models `ChargeDataModel::init`: record the file path; nothing else of
the state is touched. -/
def init (m : ChargeDataModel) (filepath : List Char) : ChargeDataModel :=
  { m with m_filepath := filepath }

/-- Models `ChargeDataModel::dispose`: close the file if open and free the
charge buffer. -/
def dispose (m : ChargeDataModel) : ChargeDataModel :=
  { m with m_file := none, m_charges := none }

/-- Models `ChargeDataModel::openFile`: open `m_filepath` for reading and
report `is_open()`. -/
def openFile (fs : FileSystem) (m : ChargeDataModel) : ChargeDataModel × Bool :=
  match fs m.m_filepath with
  | none => (m, false)
  | some c => ({ m with m_file := some c, m_filePos := 0 }, true)

/-- Stream content remaining after `n` `std::getline` calls. -/
def restAfterLines : ℕ → List Char → List Char
  | 0, s => s
  | n + 1, s => restAfterLines n (getlineRest s)

/-- Models the member function `ChargeDataModel::loadDataFromFile`: if the
file is not already open and an open attempt fails, the program exits
(`none`). Otherwise `getLineCount` counts the newlines from the current
stream position and seeks back to the start, `maxSize` lines are read and
validated, the charge buffer is filled, and `size` is reported. -/
def loadDataFromFileM (fs : FileSystem) (m : ChargeDataModel) :
    Option ((List ℚ × ℕ) × ChargeDataModel) :=
  match m.m_file with
  | none =>
    match fs m.m_filepath with
    | none => none
    | some c =>
      let r := loadLoop (readLines (getLineCount c) c) [] (getLineCount c)
      some (r, { m with m_file := some c,
                        m_filePos := c.length - (restAfterLines (getLineCount c) c).length,
                        m_charges := some r })
  | some c =>
    let maxSize := getLineCount (c.drop m.m_filePos)
    let r := loadLoop (readLines maxSize c) [] maxSize
    some (r, { m with m_filePos := c.length - (restAfterLines maxSize c).length,
                      m_charges := some r })

/-- Models `ChargeDataModel::getChargeData`: load from file only when the
charge buffer is still `nullptr`. (On the cached path the source leaves
the out-parameter `size` unassigned; the model returns the size recorded
at load time. The driver below never takes the cached path, because it
disposes the model between files.) -/
def getChargeData (fs : FileSystem) (m : ChargeDataModel) :
    Option ((List ℚ × ℕ) × ChargeDataModel) :=
  match m.m_charges with
  | some arr => some (arr, m)
  | none => loadDataFromFileM fs m

/-- The per-file loop of `main`: for each requested path, `init` the
shared model, fetch the charge data, and `dispose` before the next file.
Returns the records produced and whether the run completed; `exit(0)` on
an open failure produces no record for that file or any later one. -/
def processFiles (fs : FileSystem) :
    List (List Char) → ChargeDataModel → List (List Char × (List ℚ × ℕ)) × Bool
  | [], _ => ([], true)
  | p :: ps, m =>
    match getChargeData fs (init m p) with
    | none => ([], false)
    | some (r, m2) =>
      let rec_ := processFiles fs ps (dispose m2)
      ((p, r) :: rec_.1, rec_.2)

/-! ## Helper lemmas -/

/-- The validation loop appends every accepted charge in order and
decrements `finalSize` once per rejected line. -/
theorem loadLoop_eq (lines : List (List Char)) :
    ∀ (acc : List ℚ) (fs : ℕ),
      loadLoop lines acc fs =
        (acc ++ lines.filterMap validateLine,
          fs - lines.countP (fun l => (validateLine l).isNone)) := by
  induction lines with
  | nil => intro acc fs; simp [loadLoop]
  | cons l ls ih =>
    intro acc fs
    cases h : validateLine l with
    | some v =>
      simp [loadLoop, h, ih, List.countP_cons, List.filterMap_cons]
    | none =>
      simp [loadLoop, h, ih, List.countP_cons, List.filterMap_cons, Nat.sub_sub]
      omega

/-- Reading `n` lines yields `n` lines. -/
theorem readLines_length (n : ℕ) : ∀ s : List Char, (readLines n s).length = n := by
  induction n with
  | zero => intro s; rfl
  | succ k ih => intro s; simp [readLines, ih]

/-- Accepted and rejected lines together account for every line. -/
theorem length_filterMap_add_countP (lines : List (List Char)) :
    (lines.filterMap validateLine).length
      + lines.countP (fun l => (validateLine l).isNone) = lines.length := by
  induction lines with
  | nil => simp
  | cons l ls ih =>
    cases h : validateLine l <;>
      simp [List.filterMap_cons, List.countP_cons, h] <;> omega

/-- Folding addition from an accumulator sums the list. -/
theorem foldl_add_eq (l : List ℚ) : ∀ a : ℚ, l.foldl (fun t x => t + x) a = a + l.sum := by
  induction l with
  | nil => intro a; simp
  | cons x xs ih => intro a; simp [ih, add_assoc]

/-- The squared-deviation accumulation loop computes the sum of squared
deviations. -/
theorem sumSquaredDeviations_eq (data : List ℚ) (m : ℚ) :
    sumSquaredDeviations data m = (data.map (fun x => (x - m) ^ 2)).sum := by
  have h : ∀ (l : List ℚ) (a : ℚ),
      l.foldl (fun t x => t + (x - m) ^ 2) a = a + (l.map (fun x => (x - m) ^ 2)).sum := by
    intro l
    induction l with
    | nil => intro a; simp
    | cons x xs ih => intro a; simp [ih, add_assoc]
  simp [sumSquaredDeviations, h]

/-- Casting the sum of squared deviations to `ℝ` gives the real sum of
squared deviations. -/
theorem sumSquaredDeviations_castR (data : List ℚ) (m : ℚ) :
    ((sumSquaredDeviations data m : ℚ) : ℝ)
      = (data.map (fun x => ((x : ℝ) - (m : ℝ)) ^ 2)).sum := by
  rw [sumSquaredDeviations_eq]
  induction data with
  | nil => simp
  | cons x xs ih =>
    simp only [List.map_cons, List.sum_cons, Rat.cast_add]
    rw [ih]
    congr 1
    push_cast
    ring

/-! ## Claim theorems -/

/-- C1 (refuting the claim — code bug): under the C++11 extraction the
source requires, the failed conversion of a non-numeric line such as
`"foo"` stores 0.0 over the `-1.0` sentinel and leaves `emptyTest` empty,
so the line passes the `possibleCharge < 0.0 || !emptyTest.empty()` check
and is accepted as the charge 0.0: `"1.0\nfoo\n3.0\n"` loads as
`[1.0, 0.0, 3.0]` with size 3, not `[1.0, 3.0]`. Only lines empty after
trimming (failed sentry, sentinel kept) are rejected as claimed. -/
theorem nonnumeric_line_accepted_as_zero :
    validateLine "foo".toList = some 0 ∧
      loadDataFromFile "1.0\nfoo\n3.0\n".toList = ([1, 0, 3], 3) ∧
      validateLine "   ".toList = none := by
  refine ⟨by with_unfolding_all decide, by with_unfolding_all decide,
    by with_unfolding_all decide⟩

/-- C2 (refuting the claim — code bug): the Dataset is not exactly the
values of the valid lines: `"foo\n"` has no spec-valid line, yet the
program stores the failed conversion's 0.0 and reports size 1. On files
whose every line is cleanly numeric the claimed scenario does hold:
`"1.0\n2.0\n3.0\n"` loads as `[1.0, 2.0, 3.0]` with size 3, mean 2.0,
standard deviation 1.0 and standard error of the mean `2 / sqrt 3`. -/
theorem load_includes_zero_for_failed_conversion :
    loadDataFromFile "foo\n".toList = ([0], 1) ∧
      specValidValues "foo\n".toList = [] ∧
      loadDataFromFile "1.0\n2.0\n3.0\n".toList = ([1, 2, 3], 3) ∧
      computeMean [1, 2, 3] = 2 ∧
      computeStandardDeviation [1, 2, 3] 2 = 1 ∧
      computeStandardErrorInTheMean 2 3 = 2 / Real.sqrt 3 := by
  refine ⟨by with_unfolding_all decide, by with_unfolding_all decide,
    by with_unfolding_all decide, by with_unfolding_all decide, ?_, ?_⟩
  · have h1 : sumSquaredDeviations [1, 2, 3] 2 = 2 := by with_unfolding_all decide
    have h3 : ((sumSquaredDeviations [1, 2, 3] 2 : ℚ) : ℝ) = 2 := by rw [h1]; norm_num
    have h4 : usub32 ([(1 : ℚ), 2, 3]).length 1 = 2 := by simp [usub32]
    simp only [computeStandardDeviation, h3, h4]
    norm_num [Real.sqrt_eq_one]
  · simp [computeStandardErrorInTheMean]

/-- C5: for every non-empty data sequence, `computeMean` is the sum of
the data divided by its count. -/
theorem mean_is_sum_div_count :
    ∀ data : List ℚ, data ≠ [] → computeMean data = data.sum / (data.length : ℚ) := by
  intro data _
  simp [computeMean, foldl_add_eq]

/-- C5 witness: the mean of `[1, 2, 3]` is its sum divided by 3. -/
theorem mean_is_sum_div_count_witness :
    [(1 : ℚ), 2, 3] ≠ [] ∧
      computeMean [1, 2, 3] = [(1 : ℚ), 2, 3].sum / (([(1 : ℚ), 2, 3]).length : ℚ) :=
  ⟨by simp, mean_is_sum_div_count [1, 2, 3] (by simp)⟩

/-- C7: a line whose trimmed content parses as a floating-point token
with a negative value is excluded from the Dataset; loading
`"-1.0\n2.0\n"` yields the Dataset `[2.0]`. -/
theorem negative_line_rejected :
    (∀ (rawLine : List Char) (v : ℚ) (rest : List Char),
        extractDouble (trim rawLine) = ExtractResult.ok v rest → v < 0 →
          validateLine rawLine = none) ∧
      loadDataFromFile "-1.0\n2.0\n".toList = ([2], 1) := by
  refine ⟨?_, by with_unfolding_all decide⟩
  intro rawLine v rest h hv
  simp only [validateLine, h]
  rw [if_pos (Or.inl hv)]

/-- C7 witness: the line `"-1.0"` parses to `-1 < 0` and is rejected. -/
theorem negative_line_rejected_witness :
    extractDouble (trim "-1.0".toList) = ExtractResult.ok (-1) [] ∧ (-1 : ℚ) < 0 ∧
      validateLine "-1.0".toList = none :=
  ⟨by with_unfolding_all decide, by norm_num,
    negative_line_rejected.1 "-1.0".toList (-1) []
      (by with_unfolding_all decide) (by norm_num)⟩

/-- C8 (refuting the claim — code bug): not every line with trailing
non-whitespace content after a parseable token is excluded. `"3.2 abc"`
is rejected (the space ends the field, so `emptyTest` picks up `"abc"`
and the 2-line file `"3.2 abc\n1.0\n"` loads one entry short), but on
`"1.0e"` stage 2 consumes the dangling exponent marker into the field,
the conversion of the entire field fails, 0.0 is stored and the failed
stream leaves `emptyTest` empty — the line is accepted, and `"1.0e\n"`
loads as `([0.0], 1)` with no size reduction. -/
theorem trailing_garbage_sometimes_accepted :
    validateLine "3.2 abc".toList = none ∧
      loadDataFromFile "3.2 abc\n1.0\n".toList = ([1], 1) ∧
      validateLine "1.0e".toList = some 0 ∧
      loadDataFromFile "1.0e\n".toList = ([0], 1) := by
  refine ⟨by with_unfolding_all decide, by with_unfolding_all decide,
    by with_unfolding_all decide, by with_unfolding_all decide⟩

/-- C3: for every mean and every count of at least 1, the standard error
of the mean computed by the source is the mean — not the standard
deviation — divided by the square root of the count. -/
theorem sem_is_mean_div_sqrt_count :
    ∀ (mean : ℚ) (size : ℕ), 1 ≤ size →
      computeStandardErrorInTheMean mean size = (mean : ℝ) / Real.sqrt (size : ℝ) := by
  intro mean size _
  rfl

/-- C3 witness: at mean 2 and count 3 the result is `2 / sqrt 3`. -/
theorem sem_is_mean_div_sqrt_count_witness :
    1 ≤ 3 ∧ computeStandardErrorInTheMean 2 3 = ((2 : ℚ) : ℝ) / Real.sqrt ((3 : ℕ) : ℝ) :=
  ⟨by decide, sem_is_mean_div_sqrt_count 2 3 (by decide)⟩

/-- C4: for every data sequence of length at least 2 (and representable
as an `unsigned int`), the computed standard deviation is the
Bessel-corrected sample standard deviation
`sqrt(sum((x - mean)^2) / (count - 1))`. -/
theorem stddev_is_bessel_corrected :
    ∀ (data : List ℚ) (m : ℚ), 2 ≤ data.length → data.length < 2 ^ 32 →
      computeStandardDeviation data m
        = Real.sqrt ((data.map (fun x => ((x : ℝ) - (m : ℝ)) ^ 2)).sum
            / ((data.length : ℝ) - 1)) := by
  intro data m h2 hlt
  have hu : usub32 data.length 1 = data.length - 1 := by
    simp only [usub32]
    omega
  have hc : ((data.length - 1 : ℕ) : ℝ) = (data.length : ℝ) - 1 := by
    have h1 : 1 ≤ data.length := le_trans (by norm_num) h2
    push_cast [Nat.cast_sub h1]
    ring
  simp only [computeStandardDeviation, hu, hc, sumSquaredDeviations_castR]

/-- C4 witness: for `[1, 2, 3]` with mean 2 the standard deviation is the
Bessel-corrected formula at count 3. -/
theorem stddev_is_bessel_corrected_witness :
    2 ≤ ([(1 : ℚ), 2, 3]).length ∧ ([(1 : ℚ), 2, 3]).length < 2 ^ 32 ∧
      computeStandardDeviation [1, 2, 3] 2
        = Real.sqrt (([(1 : ℚ), 2, 3].map (fun x => ((x : ℝ) - ((2 : ℚ) : ℝ)) ^ 2)).sum
            / ((([(1 : ℚ), 2, 3]).length : ℝ) - 1)) :=
  ⟨by decide, by decide, stddev_is_bessel_corrected [1, 2, 3] 2 (by decide) (by decide)⟩

/-- The model state produced by a successful fresh load of `content` at
path `path`: the file is open with the stream past the last line read,
and the charge buffer holds the loaded data. -/
def loadedModel (path content : List Char) : ChargeDataModel :=
  { m_filepath := path
    m_file := some content
    m_filePos := content.length - (restAfterLines (getLineCount content) content).length
    m_charges := some (loadDataFromFile content) }

/-- A fresh model (no open file, no loaded charges) pointed at an
openable path loads exactly `loadDataFromFile` of the file's content and
ends in `loadedModel`. -/
theorem getChargeData_fresh (fs : FileSystem) (m : ChargeDataModel)
    (path content : List Char) (hfs : fs path = some content)
    (hf : m.m_file = none) (hc : m.m_charges = none) :
    getChargeData fs (init m path) = some (loadDataFromFile content, loadedModel path content) := by
  obtain ⟨fp, file, pos, ch⟩ := m
  simp only at hf hc
  subst hf
  subst hc
  simp [getChargeData, init, loadDataFromFileM, hfs, loadDataFromFile, loadedModel]

/-- C6: when a path cannot be opened, `loadDataFromFile` reaches
`exit(0)`: the run terminates, no Dataset is produced for that path, and
no later path is processed (the driver loop yields no further records and
does not complete). -/
theorem open_failure_terminates_run :
    ∀ (fs : FileSystem) (p : List Char) (ps : List (List Char)) (m : ChargeDataModel),
      fs p = none → m.m_file = none → m.m_charges = none →
        loadDataFromFileM fs (init m p) = none ∧
          processFiles fs (p :: ps) m = ([], false) := by
  intro fs p ps m hfs hf hc
  obtain ⟨fp, file, pos, ch⟩ := m
  simp only at hf hc
  subst hf
  subst hc
  have hload : loadDataFromFileM fs
      { m_filepath := p, m_file := none, m_filePos := pos, m_charges := none } = none := by
    simp [loadDataFromFileM, hfs]
  constructor
  · simpa [init] using hload
  · simp [processFiles, getChargeData, init, hload]

/-- C6 witness: on a file system where nothing opens, a two-file run
aborts with no records at all. -/
theorem open_failure_terminates_run_witness :
    (fun _ => none : FileSystem) "bad".toList = none ∧
      processFiles (fun _ => none) ["bad".toList, "ok".toList] mkChargeDataModel
        = ([], false) :=
  ⟨rfl,
    (open_failure_terminates_run (fun _ => none) "bad".toList ["ok".toList]
      mkChargeDataModel rfl rfl rfl).2⟩

/-- C9: loading is deterministic and idempotent over file content — a
full `init`/`getChargeData`/`dispose` cycle run twice on the same
unchanged file produces the same Dataset (and size) both times, namely
`loadDataFromFile` of the content. -/
theorem load_idempotent :
    ∀ (fs : FileSystem) (path content : List Char) (m : ChargeDataModel),
      fs path = some content → m.m_file = none → m.m_charges = none →
        getChargeData fs (init m path)
            = some (loadDataFromFile content, loadedModel path content) ∧
          getChargeData fs (init (dispose (loadedModel path content)) path)
            = some (loadDataFromFile content, loadedModel path content) := by
  intro fs path content m hfs hf hc
  refine ⟨getChargeData_fresh fs m path content hfs hf hc, ?_⟩
  have h2 := getChargeData_fresh fs (dispose (loadedModel path content)) path content hfs
    rfl rfl
  exact h2

/-- C9 witness: two load cycles on the file `"1.0\n"` both yield the
Dataset `[1.0]` with size 1. -/
theorem load_idempotent_witness :
    (fun _ => some "1.0\n".toList : FileSystem) "f".toList = some "1.0\n".toList ∧
      getChargeData (fun _ => some "1.0\n".toList) (init mkChargeDataModel "f".toList)
          = some (loadDataFromFile "1.0\n".toList, loadedModel "f".toList "1.0\n".toList) ∧
        getChargeData (fun _ => some "1.0\n".toList)
            (init (dispose (loadedModel "f".toList "1.0\n".toList)) "f".toList)
          = some (loadDataFromFile "1.0\n".toList, loadedModel "f".toList "1.0\n".toList) :=
  ⟨rfl,
    (load_idempotent (fun _ => some "1.0\n".toList) "f".toList "1.0\n".toList
      mkChargeDataModel rfl rfl rfl).1,
    (load_idempotent (fun _ => some "1.0\n".toList) "f".toList "1.0\n".toList
      mkChargeDataModel rfl rfl rfl).2⟩

/-- A `getline` on a stream starting with a newline reads an empty line. -/
theorem getlineTake_cons_nl (s : List Char) : getlineTake ('\n' :: s) = [] := by
  simp [getlineTake]

/-- A `getline` on a stream starting with a newline consumes just it. -/
theorem getlineRest_cons_nl (s : List Char) : getlineRest ('\n' :: s) = s := by
  simp [getlineRest]

/-- A non-newline head character is part of the line read. -/
theorem getlineTake_cons_ne (c : Char) (s : List Char) (hc : c ≠ '\n') :
    getlineTake (c :: s) = c :: getlineTake s := by
  simp [getlineTake, hc]

/-- A non-newline head character does not change where reading resumes. -/
theorem getlineRest_cons_ne (c : Char) (s : List Char) (hc : c ≠ '\n') :
    getlineRest (c :: s) = getlineRest s := by
  simp [getlineRest, hc]

/-- Appending a suffix to a stream that still contains a newline changes
neither the line read nor the remainder, beyond carrying the suffix. -/
theorem getline_append (t : List Char) :
    ∀ s : List Char, '\n' ∈ s →
      getlineTake (s ++ t) = getlineTake s ∧ getlineRest (s ++ t) = getlineRest s ++ t := by
  intro s
  induction s with
  | nil => intro h; cases h
  | cons c s' ih =>
    intro hmem
    by_cases hc : c = '\n'
    · subst hc
      exact ⟨getlineTake_cons_nl _,
        by rw [List.cons_append, getlineRest_cons_nl, getlineRest_cons_nl]⟩
    · have hmem' : '\n' ∈ s' := by
        rcases List.mem_cons.mp hmem with h | h
        · exact absurd h.symm hc
        · exact h
      obtain ⟨ih1, ih2⟩ := ih hmem'
      constructor
      · rw [List.cons_append, getlineTake_cons_ne c _ hc, getlineTake_cons_ne c _ hc, ih1]
      · rw [List.cons_append, getlineRest_cons_ne c _ hc, getlineRest_cons_ne c _ hc, ih2]

/-- Consuming one line consumes exactly one newline character. -/
theorem count_getlineRest :
    ∀ s : List Char, '\n' ∈ s → (getlineRest s).count '\n' = s.count '\n' - 1 := by
  intro s
  induction s with
  | nil => intro h; cases h
  | cons c s' ih =>
    intro hmem
    by_cases hc : c = '\n'
    · subst hc
      rw [getlineRest_cons_nl]
      simp
    · have hmem' : '\n' ∈ s' := by
        rcases List.mem_cons.mp hmem with h | h
        · exact absurd h.symm hc
        · exact h
      rw [getlineRest_cons_ne c _ hc, ih hmem']
      have hne : '\n' ≠ c := fun h => hc h.symm
      simp [List.count_cons, hne]

/-- Reading as many lines as a stream has newline characters never
touches content after the last newline. -/
theorem readLines_append (t : List Char) :
    ∀ (n : ℕ) (s : List Char), s.count '\n' = n → readLines n (s ++ t) = readLines n s := by
  intro n
  induction n with
  | zero => intro s _; rfl
  | succ k ih =>
    intro s hcount
    have hmem : '\n' ∈ s := by
      by_contra hmm
      rw [List.count_eq_zero_of_not_mem hmm] at hcount
      exact Nat.succ_ne_zero k hcount.symm
    obtain ⟨h1, h2⟩ := getline_append t s hmem
    have hrest : (getlineRest s).count '\n' = k := by
      rw [count_getlineRest s hmem, hcount]
      omega
    simp [readLines, h1, h2, ih (getlineRest s) hrest]

/-- C10: a final line not terminated by a newline is silently ignored:
the loader reads exactly as many lines as there are `'\n'` characters, so
appending newline-free content to any file content changes nothing, and a
file with no newline at all yields an empty Dataset of size 0. -/
theorem unterminated_final_line_ignored :
    (∀ s t : List Char, '\n' ∉ t → loadDataFromFile (s ++ t) = loadDataFromFile s) ∧
      ∀ t : List Char, '\n' ∉ t → loadDataFromFile t = ([], 0) := by
  have main : ∀ s t : List Char, '\n' ∉ t → loadDataFromFile (s ++ t) = loadDataFromFile s := by
    intro s t hnt
    have hcount : (s ++ t).count '\n' = s.count '\n' := by
      rw [List.count_append, List.count_eq_zero_of_not_mem hnt, Nat.add_zero]
    simp only [loadDataFromFile, getLineCount, hcount,
      readLines_append t (s.count '\n') s rfl]
  refine ⟨main, fun t hnt => ?_⟩
  have h := main [] t hnt
  rw [List.nil_append] at h
  rw [h]
  rfl

/-- C10 witness: `"1.0\n2.0\n3.0"` (no final newline) loads like
`"1.0\n2.0\n"`, and `"abc"` alone loads as the empty Dataset. -/
theorem unterminated_final_line_ignored_witness :
    '\n' ∉ "3.0".toList ∧
      loadDataFromFile ("1.0\n2.0\n".toList ++ "3.0".toList)
          = loadDataFromFile "1.0\n2.0\n".toList ∧
      '\n' ∉ "abc".toList ∧ loadDataFromFile "abc".toList = ([], 0) :=
  ⟨by decide,
    unterminated_final_line_ignored.1 "1.0\n2.0\n".toList "3.0".toList (by decide),
    by decide,
    unterminated_final_line_ignored.2 "abc".toList (by decide)⟩

end Assignment2
